import Mathlib

/-!
Verification development for the learning-rate-control subsystem
(`LearningRateControl.py`): the per-epoch record store, the base scheduling
algorithm (hold-over, clamping, error-key selection, relative error,
best-epoch search), and the concrete scheduling policies.

Python floats are modelled as rationals (`Rat`); Python `None` as `Option`;
Python assertion failures / `ZeroDivisionError` / `IndexError` as an explicit
`Except Err` result.  Python dicts are modelled as association lists; every
dict iteration in the source goes through `sorted(...)`, so the list order
never influences results.
-/

namespace LRC

/-- Error outcomes of the Python code: `assert` failures, `ZeroDivisionError`
on float division by zero, `IndexError` on out-of-range indexing. -/
inductive Err where
  /-- `assert epoch >= 1` in `get_learning_rate_for_epoch`. -/
  | assertEpochGe1
  /-- `assert key` in `get_epoch_error_value` / `get_epoch_error_key_value`
  (the resolved key is `None` or the empty, falsy, string). -/
  | assertKeyFalsy
  /-- `assert key in error` in `get_epoch_error_value` /
  `get_epoch_error_key_value`: resolved key not present in the error map. -/
  | keyNotInErrorMap
  /-- `assert len(epochs) >= 2` in `_calc_mean_relative_error`. -/
  | assertLen2
  /-- `ZeroDivisionError` on a float division with a zero denominator. -/
  | divByZero
  /-- `IndexError` (`last_lrs[-1]` on an empty list, `errorMeasureKey[0]`
  on an empty list). -/
  | indexError
deriving DecidableEq, Repr

/-- `LearningRateControl.EpochData`: one epoch's learning rate (possibly
`None`) and its error measurements (`dict[str,float]`). -/
structure EpochData where
  learningRate : Option Rat
  error : List (String × Rat)
deriving DecidableEq, Repr

/-- `LearningRateControl.epochData`: `dict[int, EpochData]`, as an
association list. -/
abbrev Store := List (Nat × EpochData)

/-- `errorMeasureKey` configuration value: `None`, a single `str`, or a
`list[str]`. -/
inductive ErrorMeasureKey where
  | unset
  | single (s : String)
  | list (ks : List String)
deriving DecidableEq, Repr

/-- The closed set of concrete policies (the subclasses of
`LearningRateControl`), each carrying its own configuration parameters. -/
inductive PolicyKind where
  | constant
  | newbobRelative (relativeErrorThreshold learningRateDecayFactor : Rat)
  | newbobAbs (errorThreshold learningRateDecayFactor : Rat)
  | newbobMultiEpoch (numEpochs updateInterval : Nat)
      (relativeErrorThreshold learningRateDecayFactor learningRateGrowthFactor : Rat)
deriving DecidableEq, Repr

/-- A `LearningRateControl` instance: configuration plus the mutable
`epochData` store (state is passed explicitly). -/
structure Scheduler where
  kind : PolicyKind
  defaultLearningRate : Rat
  minLearningRate : Rat
  errorMeasureKey : ErrorMeasureKey
  relativeErrorAlsoRelativeToLearningRate : Bool
  minNumEpochsPerNewLearningRate : Nat
  relativeErrorDivByOld : Bool
  epochData : Store
deriving DecidableEq, Repr

/-- Dict lookup `d[k]` / `d.get(k)` on an association list. -/
def alookup {κ α : Type} [DecidableEq κ] : List (κ × α) → κ → Option α
  | [], _ => none
  | kv :: rest, k => if kv.1 = k then some kv.2 else alookup rest k

/-- Dict update `d[k] = v` on an association list. -/
def ainsert {κ α : Type} [DecidableEq κ] (l : List (κ × α)) (k : κ) (v : α) :
    List (κ × α) :=
  if (alookup l k).isSome then l.map (fun kv => if kv.1 = k then (k, v) else kv)
  else l ++ [(k, v)]

/-- `d.keys()`. -/
def keysOf {κ α : Type} (l : List (κ × α)) : List κ := l.map (·.1)

/-- `key in d`. -/
def hasKey {κ α : Type} [DecidableEq κ] (l : List (κ × α)) (k : κ) : Bool :=
  (alookup l k).isSome

/-- `sorted(...)` on a list of epoch numbers. -/
def sortNat (l : List Nat) : List Nat := l.insertionSort (· ≤ ·)

/-- `sorted(...)` on a list of string keys. -/
def sortStr (l : List String) : List String := l.insertionSort (· ≤ ·)

/-- `self.epochData[e].learningRate`, with a missing epoch folded into
`none` (callers only use keys that are present). -/
def rateAt (st : Store) (epoch : Nat) : Option Rat :=
  (alookup st epoch).bind (·.learningRate)

/-- `get_last_epoch`: `sorted([e for e in self.epochData.keys() if e < epoch])`
and then the last element, i.e. the greatest stored key `< epoch`, or `None`. -/
def getLastEpoch (st : Store) (epoch : Nat) : Option Nat :=
  (sortNat ((keysOf st).filter (· < epoch))).getLast?

/-- `_last_epochs_for_epoch`: the last `numEpochs` stored keys `< epoch`,
ascending (`sorted(...)[-numEpochs:]`); empty if there is no history at all. -/
def lastEpochsForEpoch (st : Store) (epoch numEpochs : Nat) : List Nat :=
  let lastEpochs := sortNat ((keysOf st).filter (· < epoch))
  if lastEpochs.isEmpty then []
  else if numEpochs = 0 then lastEpochs
  else lastEpochs.drop (lastEpochs.length - numEpochs)

/-- `get_most_recent_learning_rate`: scan `reversed(sorted(items))`,
skipping future epochs, (optionally) the current epoch, and entries whose
rate is `None`; fall back to `defaultLearningRate`. -/
def getMostRecentLearningRate (sch : Scheduler) (epoch : Nat)
    (excludeCurrent : Bool) : Rat :=
  match ((sortNat (keysOf sch.epochData)).reverse).findSome? (fun e =>
      if e > epoch then none
      else if excludeCurrent && e == epoch then none
      else rateAt sch.epochData e) with
  | some lr => lr
  | none => sch.defaultLearningRate

/-- `get_epoch_error_dict`: the epoch's error map, `{}` if the epoch is
not stored. -/
def getEpochErrorDict (sch : Scheduler) (epoch : Nat) : List (String × Rat) :=
  match alookup sch.epochData epoch with
  | none => []
  | some ed => ed.error

/-- The configured candidate keys of `get_error_key`: each configured
selector name plus its `_output` variant. -/
def cfgErrorKeys : ErrorMeasureKey → List String
  | .list ks => ks.flatMap (fun key => [key, key ++ "_output"])
  | .single s => [s, s ++ "_output"]
  | .unset => []

/-- `get_error_key`: resolve which error-measurement name to read for an
epoch.  `Except` carries the `IndexError` of `self.errorMeasureKey[0]` on an
empty configured list; the `Option` is Python's `None`.  Each fallback scan
over `sorted(epoch_data.error.keys())` recomputes the sorted key list, as
the source does. -/
def getErrorKey (sch : Scheduler) (epoch : Nat) : Except Err (Option String) :=
  match alookup sch.epochData epoch with
  | none =>
    match sch.errorMeasureKey with
    | .list [] => .error .indexError
    | .list (k :: _) => .ok (some k)
    | .single s => .ok (some s)
    | .unset => .ok none
  | some epochData =>
    if epochData.error.isEmpty then .ok none
    else if epochData.error.length == 1 && hasKey epochData.error "old_format_score" then
      .ok (some "old_format_score")
    else
      match (cfgErrorKeys sch.errorMeasureKey ++ ["dev_score", "dev_score_output"]).find?
          (fun key => hasKey epochData.error key) with
      | some key => .ok (some key)
      | none =>
        match (sortStr (keysOf epochData.error)).find? (fun key =>
            key == "dev_score_output/output" || key.startsWith "dev_score_output/output_") with
        | some key => .ok (some key)
        | none =>
          match (sortStr (keysOf epochData.error)).find? (fun key =>
              key.startsWith "dev_score_output/") with
          | some key => .ok (some key)
          | none =>
            match (sortStr (keysOf epochData.error)).find? (fun key =>
                key.startsWith "dev_") with
            | some key => .ok (some key)
            | none =>
              match (["train_score", "train_score_output"].find?
                  (fun key => hasKey epochData.error key)) with
              | some key => .ok (some key)
              | none => .ok (sortStr (keysOf epochData.error)).head?

/-- `get_epoch_error_key_value`: `(None, None)` when the epoch has no error
recorded; otherwise the resolved key and its value, with the two assertions
(`assert key`, `assert key in error`) as error outcomes. -/
def getEpochErrorKeyValue (sch : Scheduler) (epoch : Nat) :
    Except Err (Option (String × Rat)) :=
  if (getEpochErrorDict sch epoch).isEmpty then .ok none
  else do
    let key? ← getErrorKey sch epoch
    match key? with
    | none => .error .assertKeyFalsy
    | some key =>
      if key = "" then .error .assertKeyFalsy
      else
        match alookup (getEpochErrorDict sch epoch) key with
        | some v => .ok (some (key, v))
        | none => .error .keyNotInErrorMap

/-- `get_epoch_error_value`: like `get_epoch_error_key_value` but returns
only the value. -/
def getEpochErrorValue (sch : Scheduler) (epoch : Nat) :
    Except Err (Option Rat) :=
  (getEpochErrorKeyValue sch epoch).map (·.map (·.2))

/-- Checked float division: Python raises `ZeroDivisionError` on a zero
denominator. -/
def cdiv (a b : Rat) : Except Err Rat :=
  if b = 0 then .error .divByZero else .ok (a / b)

/-- `calc_relative_error(oldEpoch, newEpoch)`: `None` when either epoch has
no error or the resolved keys differ; otherwise `(new - old) / |denominator|`
(denominator `old` iff `relativeErrorDivByOld`), optionally further divided
by `most_recent_lr(newEpoch, excludeCurrent=False) / defaultLearningRate`. -/
def calcRelativeError (sch : Scheduler) (oldEpoch newEpoch : Nat) :
    Except Err (Option Rat) := do
  let old? ← getEpochErrorKeyValue sch oldEpoch
  let new? ← getEpochErrorKeyValue sch newEpoch
  match old?, new? with
  | some (oldKey, oldError), some (newKey, newError) =>
    if oldKey ≠ newKey then .ok none
    else do
      let relativeError ←
        if sch.relativeErrorDivByOld then cdiv (newError - oldError) |oldError|
        else cdiv (newError - oldError) |newError|
      if sch.relativeErrorAlsoRelativeToLearningRate then do
        let learningRate := getMostRecentLearningRate sch newEpoch false
        let ratio ← cdiv learningRate sch.defaultLearningRate
        let corrected ← cdiv relativeError ratio
        .ok (some corrected)
      else .ok (some relativeError)
  | _, _ => .ok none

/-- `ConstantLearningRate.calc_learning_rate_for_epoch`: walk backwards from
the last stored epoch, skipping epochs whose rate is `None`; default if no
history. -/
def constantCalc (st : Store) (defaultLearningRate : Rat) (epoch : Nat) : Rat :=
  match h : getLastEpoch st epoch with
  | none => defaultLearningRate
  | some lastEpoch =>
    match rateAt st lastEpoch with
    | some learningRate => learningRate
    | none => constantCalc st defaultLearningRate lastEpoch
termination_by epoch
decreasing_by
  have hmem : lastEpoch ∈ sortNat ((keysOf st).filter (· < epoch)) :=
    List.mem_of_mem_getLast? h
  have hmem2 : lastEpoch ∈ (keysOf st).filter (· < epoch) :=
    (List.perm_insertionSort _ _).mem_iff.mp hmem
  have := (List.mem_filter.mp hmem2).2
  simpa using this

/-- `NewbobRelative.calc_learning_rate_for_epoch`. -/
def newbobRelativeCalc (sch : Scheduler)
    (relativeErrorThreshold learningRateDecayFactor : Rat) (epoch : Nat) :
    Except Err Rat :=
  match getLastEpoch sch.epochData epoch with
  | none => .ok sch.defaultLearningRate
  | some lastEpoch =>
    match rateAt sch.epochData lastEpoch with
    | none => .ok sch.defaultLearningRate
    | some learningRate =>
      match getLastEpoch sch.epochData lastEpoch with
      | none => .ok learningRate
      | some last2Epoch => do
        let relativeError? ← calcRelativeError sch last2Epoch lastEpoch
        match relativeError? with
        | none => .ok learningRate
        | some relativeError =>
          if relativeError > relativeErrorThreshold then
            .ok (learningRate * learningRateDecayFactor)
          else .ok learningRate

/-- `NewbobAbs.calc_learning_rate_for_epoch`. -/
def newbobAbsCalc (sch : Scheduler)
    (errorThreshold learningRateDecayFactor : Rat) (epoch : Nat) :
    Except Err Rat :=
  match getLastEpoch sch.epochData epoch with
  | none => .ok sch.defaultLearningRate
  | some lastEpoch =>
    match rateAt sch.epochData lastEpoch with
    | none => .ok sch.defaultLearningRate
    | some learningRate => do
      match getLastEpoch sch.epochData lastEpoch with
      | none => .ok learningRate
      | some last2Epoch => do
        let old? ← getEpochErrorKeyValue sch last2Epoch
        let new? ← getEpochErrorKeyValue sch lastEpoch
        match old?, new? with
        | some (oldKey, oldError), some (newKey, newError) =>
          if oldKey ≠ newKey then .ok learningRate
          else if newError - oldError > errorThreshold then
            .ok (learningRate * learningRateDecayFactor)
          else .ok learningRate
        | _, _ => .ok learningRate

/-- `NewbobMultiEpoch._calc_mean_relative_error`: mean of the relative errors
of consecutive epoch pairs; `None` if any pairwise relative error is `None`. -/
def calcMeanRelativeError (sch : Scheduler) (epochs : List Nat) :
    Except Err (Option Rat) :=
  if epochs.length < 2 then .error .assertLen2
  else do
    let errors ← (epochs.zip epochs.tail).mapM
      (fun p => calcRelativeError sch p.1 p.2)
    if errors.any (·.isNone) then .ok none
    else .ok (some ((errors.filterMap id).sum / (errors.length : Rat)))

/-- `NewbobMultiEpoch._calc_recent_mean_relative_error`: mean relative error
over the last `numEpochs + 1` epochs with history. -/
def calcRecentMeanRelativeError (sch : Scheduler) (numEpochs epoch : Nat) :
    Except Err (Option Rat) :=
  let lastEpochs := lastEpochsForEpoch sch.epochData epoch (numEpochs + 1)
  if lastEpochs.isEmpty then .ok none
  else if lastEpochs.length ≤ 1 then .ok none
  else calcMeanRelativeError sch lastEpochs

/-- `NewbobMultiEpoch.calc_learning_rate_for_epoch`: note the starting rate
is `get_most_recent_learning_rate(epoch)` with its default
`excludeCurrent=True`. -/
def newbobMultiCalc (sch : Scheduler) (numEpochs updateInterval : Nat)
    (relativeErrorThreshold learningRateDecayFactor learningRateGrowthFactor : Rat)
    (epoch : Nat) : Except Err Rat :=
  let learningRate := getMostRecentLearningRate sch epoch true
  if updateInterval > 1 ∧ epoch % updateInterval ≠ 1 then .ok learningRate
  else do
    let meanRelativeError? ← calcRecentMeanRelativeError sch numEpochs epoch
    match meanRelativeError? with
    | none => .ok learningRate
    | some meanRelativeError =>
      if meanRelativeError > relativeErrorThreshold then
        .ok (learningRate * learningRateDecayFactor)
      else .ok (learningRate * learningRateGrowthFactor)

/-- `calc_learning_rate_for_epoch`: dispatch to the active policy
(the subclass override of the abstract hook). -/
def calcLearningRateForEpoch (sch : Scheduler) (epoch : Nat) : Except Err Rat :=
  match sch.kind with
  | .constant => .ok (constantCalc sch.epochData sch.defaultLearningRate epoch)
  | .newbobRelative thr decay => newbobRelativeCalc sch thr decay epoch
  | .newbobAbs thr decay => newbobAbsCalc sch thr decay epoch
  | .newbobMultiEpoch n ui thr decay growth =>
    newbobMultiCalc sch n ui thr decay growth epoch

/-- The list `last_lrs` of `calc_new_learnign_rate_for_epoch`: the recorded
rates (possibly `None`) of the last `minNumEpochsPerNewLearningRate` epochs
with history before `epoch`. -/
def lastLrs (sch : Scheduler) (epoch : Nat) : List (Option Rat) :=
  (lastEpochsForEpoch sch.epochData epoch sch.minNumEpochsPerNewLearningRate).map
    (fun e => rateAt sch.epochData e)

/-- The hold-over guard of `calc_new_learnign_rate_for_epoch`:
`minNumEpochsPerNewLearningRate > 1` and
(`len(set(last_lrs)) >= 2 or 0 < len(last_lrs) < minNumEpochsPerNewLearningRate`). -/
def holdCond (sch : Scheduler) (epoch : Nat) : Prop :=
  1 < sch.minNumEpochsPerNewLearningRate ∧
    (2 ≤ (lastLrs sch epoch).dedup.length ∨
      (0 < (lastLrs sch epoch).length ∧
        (lastLrs sch epoch).length < sch.minNumEpochsPerNewLearningRate))

instance (sch : Scheduler) (epoch : Nat) : Decidable (holdCond sch epoch) := by
  unfold holdCond; infer_instance

/-- `calc_new_learnign_rate_for_epoch`: hold-over rule, then the policy hook,
then the clamp to `minLearningRate`.  The hold-over branch returns
`last_lrs[-1]` (possibly `None`) unclamped; only the policy result is
clamped. -/
def calcNewLearningRateForEpoch (sch : Scheduler) (epoch : Nat) :
    Except Err (Option Rat) :=
  if holdCond sch epoch then
    match (lastLrs sch epoch).getLast? with
    | some lr => .ok lr
    | none => .error .indexError
  else do
    let learningRate ← calcLearningRateForEpoch sch epoch
    if learningRate < sch.minLearningRate then .ok (some sch.minLearningRate)
    else .ok (some learningRate)

/-- Python truthiness of a `float | None` learning-rate slot: falsy iff
`None` or `0.0`. -/
def isFalsy : Option Rat → Bool
  | none => true
  | some q => q == 0

/-- `set_default_learning_rate_for_epoch`: overwrite the slot only when the
existing record's rate is falsy (`None` or `0.0`); create the record
otherwise. -/
def setDefaultLearningRateForEpoch (sch : Scheduler) (epoch : Nat)
    (learningRate : Option Rat) : Scheduler :=
  match alookup sch.epochData epoch with
  | some ed =>
    if isFalsy ed.learningRate then
      { sch with epochData :=
          ainsert sch.epochData epoch { ed with learningRate := learningRate } }
    else sch
  | none =>
    { sch with epochData := ainsert sch.epochData epoch ⟨learningRate, []⟩ }

/-- `get_learning_rate_for_epoch` (the primary entry point
`rate_for_epoch`): `assert epoch >= 1`; an already stored epoch returns its
recorded rate unchanged; otherwise compute, store as default, and return. -/
def getLearningRateForEpoch (sch : Scheduler) (epoch : Nat) :
    Except Err (Option Rat × Scheduler) :=
  if epoch < 1 then .error .assertEpochGe1
  else
    match alookup sch.epochData epoch with
    | some ed => .ok (ed.learningRate, sch)
    | none => do
      let learningRate ← calcNewLearningRateForEpoch sch epoch
      .ok (learningRate, setDefaultLearningRateForEpoch sch epoch learningRate)

/-- `get_last_best_epoch` tuple comparison: Python `min` over
`(value, epoch)` pairs, lexicographic, keeping the first minimum. -/
def tupLt (a b : Rat × Nat) : Prop :=
  a.1 < b.1 ∨ (a.1 = b.1 ∧ a.2 < b.2)

instance (a b : Rat × Nat) : Decidable (tupLt a b) := by
  unfold tupLt; infer_instance

/-- Python `min` on a list of `(value, epoch)` pairs (first minimum wins). -/
def minPair : List (Rat × Nat) → Option (Rat × Nat)
  | [] => none
  | x :: xs => some (xs.foldl (fun acc y => if tupLt y acc then y else acc) x)

/-- The `filter_score` parameter defaults to `float("inf")`; `none` models
`+inf` (every value passes). -/
def leFilterScore (v : Rat) (filterScore : Option Rat) : Bool :=
  match filterScore with
  | none => true
  | some f => v ≤ f

/-- `get_last_best_epoch(last_epoch, first_epoch, filter_score, only_last_n,
min_score_dist)` (`best_epoch_in_range`): the best-performing epoch of the
range, after the source's filter cascade. -/
def getLastBestEpoch (sch : Scheduler) (lastEpoch : Nat) (firstEpoch : Nat)
    (filterScore : Option Rat) (onlyLastN : Int) (minScoreDist : Rat) :
    Except Err (Option Nat) :=
  if firstEpoch > lastEpoch then .ok none
  else do
    let values0 ← (List.range' firstEpoch (lastEpoch + 1 - firstEpoch)).mapM
      (fun ep => do
        let kv ← getEpochErrorKeyValue sch ep
        pure (kv, ep))
    let values1 := values0.filterMap
      (fun kvep => kvep.1.map (fun kv => (kv, kvep.2)))
    match values1.getLast? with
    | none => .ok none
    | some ((lastKey, latestScore), _) =>
      let values2 := values1.filterMap
        (fun kvep => if kvep.1.1 = lastKey then some (kvep.1.2, kvep.2) else none)
      let values3 := values2.filter (fun vep => leFilterScore vep.1 filterScore)
      if values3.isEmpty then .ok none
      else
        let values4 :=
          if onlyLastN ≥ 1 then values3.drop (values3.length - onlyLastN.toNat)
          else values3
        let values5 := values4.filter (fun vep => vep.1 + minScoreDist < latestScore)
        if values5.isEmpty then .ok none
        else .ok ((minPair values5).map (·.2))

/-! ### Persistence (`save` / `load`)

Modelled from the spec: the serializer (`better_repr` from `Util.py`) and
the `eval`-based deserializer invoked by `LearningRateControl.save` /
`LearningRateControl.load` are not part of the sources under verification
(only their call sites are).  Following the spec, the persisted artifact is
"a single text artifact representing the full epoch→EpochRecord mapping in a
literal, human-readable, re-parseable notation; special float tokens for
not-a-number and infinity must round-trip exactly".  We model the artifact
as a token stream of that literal notation, with explicit tokens for the
`nan` / `inf` / `-inf` float literals, and the backing file as a mapping
from path to token stream. -/

/-- A persisted float literal: `nan`, `inf`, `-inf`, or a finite value. -/
inductive FVal where
  | nan
  | inf
  | ninf
  | val (q : Rat)
deriving DecidableEq, Repr

/-- One epoch's persisted record: its learning rate (possibly `None`) and
its error map. -/
structure PEpochData where
  learningRate : Option FVal
  error : List (String × FVal)
deriving DecidableEq, Repr

/-- The persisted epoch→record mapping. -/
abbrev PStore := List (Nat × PEpochData)

/-- Tokens of the literal notation. -/
inductive Tok where
  | nat (n : Nat)
  | str (s : String)
  | fnan
  | finf
  | fninf
  | frat (q : Rat)
  | noneTok
  | openDict
  | closeDict
  | openRec
  | closeRec
deriving DecidableEq, Repr

/-- Modelled from the spec: serialize one float literal. -/
def serFVal : FVal → Tok
  | .nan => .fnan
  | .inf => .finf
  | .ninf => .fninf
  | .val q => .frat q

/-- Modelled from the spec: serialize a `float | None` learning-rate slot. -/
def serLR : Option FVal → Tok
  | none => .noneTok
  | some v => serFVal v

/-- Modelled from the spec: serialize the error map entries. -/
def serError : List (String × FVal) → List Tok
  | [] => []
  | (k, v) :: rest => .str k :: serFVal v :: serError rest

/-- Modelled from the spec: serialize one epoch record. -/
def serRecord (r : PEpochData) : List Tok :=
  .openRec :: serLR r.learningRate :: .openDict ::
    (serError r.error ++ [.closeDict, .closeRec])

/-- Modelled from the spec: serialize the store entries. -/
def serStoreEntries : PStore → List Tok
  | [] => []
  | (e, r) :: rest => .nat e :: (serRecord r ++ serStoreEntries rest)

/-- Modelled from the spec: `save`'s serialized form of the full store
(`better_repr(self.epochData)`). -/
def serStore (st : PStore) : List Tok :=
  .openDict :: (serStoreEntries st ++ [.closeDict])

/-- Parse one float literal token. -/
def parseFVal : Tok → Option FVal
  | .fnan => some .nan
  | .finf => some .inf
  | .fninf => some .ninf
  | .frat q => some (.val q)
  | _ => none

/-- Parse a `float | None` learning-rate token. -/
def parseLR : Tok → Option (Option FVal)
  | .noneTok => some none
  | t => (parseFVal t).map some

/-- Parse error-map entries up to the closing brace; returns the entries and
the remaining tokens. -/
def parseError : List Tok → Option (List (String × FVal) × List Tok)
  | .closeDict :: rest => some ([], rest)
  | .str k :: t :: rest => do
    let v ← parseFVal t
    let (es, rest') ← parseError rest
    pure ((k, v) :: es, rest')
  | _ => none

/-- Parse one epoch record. -/
def parseRecord : List Tok → Option (PEpochData × List Tok)
  | .openRec :: t :: .openDict :: rest => do
    let lr ← parseLR t
    let (es, rest') ← parseError rest
    match rest' with
    | .closeRec :: rest'' => pure (⟨lr, es⟩, rest'')
    | _ => none
  | _ => none

/-- Parse the store entries up to the closing brace (fuel-indexed: every
entry consumes at least one token, so the input length is enough fuel). -/
def parseStoreEntries : Nat → List Tok → Option (PStore × List Tok)
  | _, .closeDict :: rest => some ([], rest)
  | fuel + 1, .nat e :: rest =>
    match parseRecord rest with
    | some (r, rest') =>
      match parseStoreEntries fuel rest' with
      | some (st, rest'') => some ((e, r) :: st, rest'')
      | none => none
    | none => none
  | _, _ => none

/-- `load`'s parse of the persisted artifact back into a store; fails on any
input that is not the expected mapping-of-records shape. -/
def parseStore (l : List Tok) : Option PStore :=
  match l with
  | .openDict :: rest =>
    match parseStoreEntries rest.length rest with
    | some (st, []) => some st
    | _ => none
  | _ => none

/-- The backing files: path → persisted token stream. -/
def FileSystem : Type := String → Option (List Tok)

/-- Modelled from the spec: `save()` writes the serialized store to the
backing path (via the temp-file-and-rename, whose net effect on the final
file contents is this update); no-op if no path is configured. -/
def saveFile (filename : Option String) (st : PStore) (fs : FileSystem) :
    FileSystem :=
  match filename with
  | none => fs
  | some f => fun g => if g = f then some (serStore st) else fs g

/-- Modelled from the spec: a fresh `load()` of the backing path parses the
file contents into a store. -/
def loadFile (filename : String) (fs : FileSystem) : Option PStore :=
  (fs filename).bind parseStore

end LRC

namespace LRC

/-- Decidable equality for `Except` results (used to evaluate the embedded
operations on concrete inputs). -/
instance {ε α : Type} [DecidableEq ε] [DecidableEq α] : DecidableEq (Except ε α) :=
  fun x y =>
    match x, y with
    | .ok a, .ok b =>
      if h : a = b then isTrue (by rw [h])
      else isFalse (by intro hh; cases hh; exact h rfl)
    | .error a, .error b =>
      if h : a = b then isTrue (by rw [h])
      else isFalse (by intro hh; cases hh; exact h rfl)
    | .ok _, .error _ => isFalse (by intro hh; cases hh)
    | .error _, .ok _ => isFalse (by intro hh; cases hh)

/-! ### Concrete scenario schedulers -/

/-- NewbobRelative scheduler of the C2 scenario: default rate 1, threshold
`-0.01`, decay `0.5`, new-denominator, no rate normalization, no hold-over,
floor 0. -/
def newbobBase : Scheduler :=
  { kind := .newbobRelative (-1/100) (1/2)
    defaultLearningRate := 1
    minLearningRate := 0
    errorMeasureKey := .unset
    relativeErrorAlsoRelativeToLearningRate := false
    minNumEpochsPerNewLearningRate := 0
    relativeErrorDivByOld := false
    epochData := [] }

/-- C2 state after epoch 1 ran with rate 1 and reported `dev_score=1.0`. -/
def schEp1 : Scheduler :=
  { newbobBase with epochData := [(1, ⟨some 1, [("dev_score", 1)]⟩)] }

/-- C2 state after epoch 2 additionally ran with rate 1 and reported
`dev_score=0.99`. -/
def schEp2Decay : Scheduler :=
  { newbobBase with epochData :=
      [(1, ⟨some 1, [("dev_score", 1)]⟩),
       (2, ⟨some 1, [("dev_score", 99/100)]⟩)] }

/-- C2 state after epoch 2 instead reported `dev_score=0.80`. -/
def schEp2Improve : Scheduler :=
  { newbobBase with epochData :=
      [(1, ⟨some 1, [("dev_score", 1)]⟩),
       (2, ⟨some 1, [("dev_score", 4/5)]⟩)] }

/-- C3 store: epochs 1..5 with `dev_score` values
`[0.9, 0.8, 0.85, 0.95, 0.7]`, all rates set. -/
def schBest : Scheduler :=
  { newbobBase with epochData :=
      [(1, ⟨some 1, [("dev_score", 9/10)]⟩),
       (2, ⟨some 1, [("dev_score", 8/10)]⟩),
       (3, ⟨some 1, [("dev_score", 85/100)]⟩),
       (4, ⟨some 1, [("dev_score", 95/100)]⟩),
       (5, ⟨some 1, [("dev_score", 7/10)]⟩)] }

/-- C4 counterexample scheduler: hold-over `m = 2`, the two epochs before
epoch 3 both hold the identical rate 1, and the error history makes the
NewbobRelative policy decay. -/
def schHoldSame : Scheduler :=
  { newbobBase with
    minNumEpochsPerNewLearningRate := 2
    epochData :=
      [(1, ⟨some 1, [("dev_score", 1)]⟩),
       (2, ⟨some 1, [("dev_score", 999/1000)]⟩)] }

/-- C1 counterexample scheduler: floor `0.5`, epoch 1 already stored with
rate `0.1` (below the floor). -/
def schStoredLow : Scheduler :=
  { newbobBase with
    kind := .constant
    minLearningRate := 1/2
    epochData := [(1, ⟨some (1/10), []⟩)] }

/-- C7 counterexample scheduler: NewbobMultiEpoch with `updateInterval = 3`,
and epoch 3 itself carrying rate 7 while no earlier epoch exists. -/
def schMulti : Scheduler :=
  { newbobBase with
    kind := .newbobMultiEpoch 1 3 (-1/100) (1/2) 1
    epochData := [(3, ⟨some 7, []⟩)] }

/-- C8 counterexample scheduler: epoch 1 stored with rate exactly `0.0`. -/
def schZeroRate : Scheduler :=
  { newbobBase with epochData := [(1, ⟨some 0, [("a", 2)]⟩)] }

/-- C10 concrete scheduler: epoch 2's `dev_score` is `0.0`, the default
relative-error denominator. -/
def schZeroDenom : Scheduler :=
  { newbobBase with epochData :=
      [(1, ⟨some 1, [("dev_score", 1)]⟩),
       (2, ⟨some 1, [("dev_score", 0)]⟩)] }

/-- C5 witness scheduler: epoch 1 already stored with rate 2. -/
def schStored : Scheduler :=
  { newbobBase with epochData := [(1, ⟨some 2, []⟩)] }

/-- C4 amended-theorem witness scheduler: hold-over `m = 2` with a single
epoch of history. -/
def schHoldShort : Scheduler :=
  { newbobBase with
    minNumEpochsPerNewLearningRate := 2
    epochData := [(1, ⟨some 3, []⟩)] }

/-- C1 amended-theorem witness scheduler: empty store, floor `0.5`. -/
def schFreshFloor : Scheduler :=
  { newbobBase with minLearningRate := 1/2 }

/-- C9 witness scheduler: epoch 1's only measurement forces the
smallest-key fallback branch of `get_error_key`. -/
def schOddKey : Scheduler :=
  { newbobBase with epochData := [(1, ⟨some 1, [("foo", 1)]⟩)] }

/-! ### Helper lemmas on association lists -/

theorem alookup_map_replace {κ α : Type} [DecidableEq κ]
    (l : List (κ × α)) (k k' : κ) (v : α) (h : k' ≠ k) :
    alookup (l.map (fun kv => if kv.1 = k then (k, v) else kv)) k' =
      alookup l k' := by
  induction l with
  | nil => rfl
  | cons a t ih =>
    by_cases hak : a.1 = k
    · simp only [List.map_cons, if_pos hak, alookup]
      rw [if_neg (fun hh => h hh.symm), if_neg (by rw [hak]; exact fun hh => h hh.symm), ih]
    · simp only [List.map_cons, if_neg hak, alookup]
      by_cases hak' : a.1 = k'
      · rw [if_pos hak', if_pos hak']
      · rw [if_neg hak', if_neg hak', ih]

theorem alookup_map_replace_self {κ α : Type} [DecidableEq κ]
    (l : List (κ × α)) (k : κ) (v : α) (h : (alookup l k).isSome) :
    alookup (l.map (fun kv => if kv.1 = k then (k, v) else kv)) k = some v := by
  induction l with
  | nil => simp [alookup] at h
  | cons a t ih =>
    by_cases hak : a.1 = k
    · simp [List.map_cons, if_pos hak, alookup]
    · simp only [List.map_cons, if_neg hak, alookup, if_neg hak]
      simp only [alookup, if_neg hak] at h
      exact ih h

theorem alookup_append_single_ne {κ α : Type} [DecidableEq κ]
    (l : List (κ × α)) (k k' : κ) (v : α) (h : k' ≠ k) :
    alookup (l ++ [(k, v)]) k' = alookup l k' := by
  induction l with
  | nil => simp only [List.nil_append, alookup]; rw [if_neg (fun hh => h hh.symm)]
  | cons a t ih =>
    simp only [List.cons_append, alookup, List.append_eq]
    by_cases hak' : a.1 = k'
    · rw [if_pos hak', if_pos hak']
    · rw [if_neg hak', if_neg hak', ih]

theorem alookup_append_single_self {κ α : Type} [DecidableEq κ]
    (l : List (κ × α)) (k : κ) (v : α) (h : alookup l k = none) :
    alookup (l ++ [(k, v)]) k = some v := by
  induction l with
  | nil => simp [alookup]
  | cons a t ih =>
    simp only [alookup] at h
    by_cases hak : a.1 = k
    · rw [if_pos hak] at h; cases h
    · rw [if_neg hak] at h
      simp only [List.cons_append, alookup, if_neg hak]
      exact ih h

theorem alookup_ainsert_ne {κ α : Type} [DecidableEq κ]
    (l : List (κ × α)) (k k' : κ) (v : α) (h : k' ≠ k) :
    alookup (ainsert l k v) k' = alookup l k' := by
  unfold ainsert
  by_cases hs : (alookup l k).isSome
  · rw [if_pos hs]; exact alookup_map_replace l k k' v h
  · rw [if_neg hs]; exact alookup_append_single_ne l k k' v h

theorem alookup_ainsert_self {κ α : Type} [DecidableEq κ]
    (l : List (κ × α)) (k : κ) (v : α) :
    alookup (ainsert l k v) k = some v := by
  unfold ainsert
  by_cases hs : (alookup l k).isSome
  · rw [if_pos hs]; exact alookup_map_replace_self l k v hs
  · rw [if_neg hs]
    exact alookup_append_single_self l k v (Option.not_isSome_iff_eq_none.mp hs)

theorem hasKey_of_mem_keys {κ α : Type} [DecidableEq κ]
    (l : List (κ × α)) (k : κ) (h : k ∈ keysOf l) : hasKey l k = true := by
  induction l with
  | nil => simp [keysOf] at h
  | cons a t ih =>
    by_cases hak : a.1 = k
    · simp [hasKey, alookup, if_pos hak]
    · simp only [keysOf, List.map_cons, List.mem_cons] at h
      rcases h with h | h
      · exact absurd h.symm hak
      · simpa [hasKey, alookup, if_neg hak] using ih h

theorem mem_keys_of_mem_sortStr {l : List String} {k : String}
    (h : k ∈ sortStr l) : k ∈ l :=
  (List.perm_insertionSort _ _).mem_iff.mp h

theorem head?_mem_of_ne_nil {α : Type} {l : List α} {a : α}
    (h : l.head? = some a) : a ∈ l := by
  cases l with
  | nil => cases h
  | cons x xs =>
    simp only [List.head?] at h
    exact Or.inl (Option.some_injective _ h).symm |> List.mem_cons.mpr

/-! ### Claim theorems -/

section
attribute [local semireducible] Rat.add Rat.mul Rat.inv Rat.sub Rat.ofScientific

/-- Claim C2 counterexample: in the NewbobRelative scenario, after epoch 2
reports `dev_score=0.99`, `rate_for_epoch(3)` returns `1.0`, not the claimed
`0.5`: the relative error `(0.99-1.0)/0.99 = -1/99 ≈ -0.0101` is *smaller*
than the threshold `-0.01`, and the code decays only when the relative error
is strictly *greater* than the threshold. -/
theorem newbobRelative_decay_scenario_counterexample :
    (getLearningRateForEpoch schEp2Decay 3).map (·.1) = .ok (some 1) ∧
    calcRelativeError schEp2Decay 1 2 = .ok (some (-1/99)) ∧
    ¬ ((-1 : Rat)/99 > -1/100) ∧
    some (1 : Rat) ≠ some (1/2) := by
  refine ⟨by decide, by decide, by norm_num, by decide⟩

/-- Claim C2 as amended: epoch-1-only history gives `rate_for_epoch(2) = 1.0`;
after epoch 2 reports `dev_score=0.99` (relative error `-1/99`, not above the
threshold `-0.01`), `rate_for_epoch(3)` returns `1.0` (no decay); after
epoch 2 instead reports `dev_score=0.80` (relative error `-1/4`),
`rate_for_epoch(3)` also returns `1.0`. -/
theorem newbobRelative_decay_scenario_amended :
    (getLearningRateForEpoch schEp1 2).map (·.1) = .ok (some 1) ∧
    (getLearningRateForEpoch schEp2Decay 3).map (·.1) = .ok (some 1) ∧
    calcRelativeError schEp2Decay 1 2 = .ok (some (-1/99)) ∧
    (getLearningRateForEpoch schEp2Improve 3).map (·.1) = .ok (some 1) ∧
    calcRelativeError schEp2Improve 1 2 = .ok (some (-1/4)) := by
  refine ⟨by decide, by decide, by decide, by decide, by decide⟩

/-- Claim C3 counterexample: on the store with `dev_score` values
`[0.9, 0.8, 0.85, 0.95, 0.7]` for epochs 1..5, `get_last_best_epoch` with
default arguments does not return epoch 5: the final filter keeps only
epochs whose value is strictly below the last epoch's value `0.7`, so every
epoch (including epoch 5 itself) is discarded. -/
theorem getLastBestEpoch_scenario_counterexample :
    getLastBestEpoch schBest 5 1 none (-1) 0 ≠ Except.ok (some 5) := by
  decide

/-- Claim C3 as amended: on that store, `get_last_best_epoch(5, 1)` with
default arguments returns `None` (no epoch's value is strictly smaller than
the last epoch's value `0.7`), and with `min_score_dist=0.3` it also returns
`None` (no epoch beats `0.7` by more than `0.3`). -/
theorem getLastBestEpoch_scenario_amended :
    getLastBestEpoch schBest 5 1 none (-1) 0 = .ok none ∧
    getLastBestEpoch schBest 5 1 none (-1) (3/10) = .ok none := by
  refine ⟨by decide, by decide⟩

/-- Claim C1 counterexample: an already-stored rate is returned unchanged
even when it lies below the configured floor: with `minLearningRate = 0.5`
and epoch 1 stored at rate `0.1`, `rate_for_epoch(1)` returns `0.1 < 0.5`. -/
theorem minRateFloor_counterexample :
    getLearningRateForEpoch schStoredLow 1 = .ok (some (1/10), schStoredLow) ∧
    schStoredLow.minLearningRate = 1/2 ∧
    ¬ ((1 : Rat)/2 ≤ 1/10) := by
  refine ⟨by decide, by decide, by decide⟩

/-- Without the hold-over early return, a successful policy result is
clamped to the floor before being returned as the new rate. -/
theorem calcNew_policy_ok (sch : Scheduler) (epoch : Nat) (lr : Rat)
    (hg : ¬ holdCond sch epoch)
    (hc : calcLearningRateForEpoch sch epoch = .ok lr) :
    calcNewLearningRateForEpoch sch epoch =
      .ok (some (if lr < sch.minLearningRate then sch.minLearningRate else lr)) := by
  unfold calcNewLearningRateForEpoch
  rw [if_neg hg, hc]
  show (if lr < sch.minLearningRate then Except.ok (some sch.minLearningRate)
        else Except.ok (some lr)) = _
  by_cases hlt : lr < sch.minLearningRate <;> simp [hlt]

/-- Without the hold-over early return, a policy error surfaces. -/
theorem calcNew_policy_error (sch : Scheduler) (epoch : Nat) (e : Err)
    (hg : ¬ holdCond sch epoch)
    (hc : calcLearningRateForEpoch sch epoch = .error e) :
    calcNewLearningRateForEpoch sch epoch = .error e := by
  unfold calcNewLearningRateForEpoch
  rw [if_neg hg, hc]
  rfl

/-- On a not-yet-stored epoch, a successful rate computation is stored as
the epoch's default and returned. -/
theorem getLRFE_not_stored_ok (sch : Scheduler) (epoch : Nat) (o : Option Rat)
    (h1 : 1 ≤ epoch) (hn : alookup sch.epochData epoch = none)
    (hco : calcNewLearningRateForEpoch sch epoch = .ok o) :
    getLearningRateForEpoch sch epoch =
      .ok (o, setDefaultLearningRateForEpoch sch epoch o) := by
  unfold getLearningRateForEpoch
  rw [if_neg (by omega), hn, hco]
  rfl

/-- On a not-yet-stored epoch, a failed rate computation surfaces. -/
theorem getLRFE_not_stored_error (sch : Scheduler) (epoch : Nat) (e : Err)
    (h1 : 1 ≤ epoch) (hn : alookup sch.epochData epoch = none)
    (hce : calcNewLearningRateForEpoch sch epoch = .error e) :
    getLearningRateForEpoch sch epoch = .error e := by
  unfold getLearningRateForEpoch
  rw [if_neg (by omega), hn, hce]
  rfl

/-- Claim C1 as amended: the clamp applies only on the policy-hook path.
For an epoch with no stored record, when the hold-over rule does not return
early and the call succeeds, the returned value is a rate `≥ minLearningRate`. -/
theorem minRateFloor_amended (sch : Scheduler) (epoch : Nat)
    (h1 : 1 ≤ epoch) (hn : alookup sch.epochData epoch = none)
    (hg : ¬ holdCond sch epoch) (v : Option Rat) (sch' : Scheduler)
    (hok : getLearningRateForEpoch sch epoch = .ok (v, sch')) :
    ∃ r, v = some r ∧ sch.minLearningRate ≤ r := by
  cases hc : calcLearningRateForEpoch sch epoch with
  | error e =>
    rw [getLRFE_not_stored_error sch epoch e h1 hn
      (calcNew_policy_error sch epoch e hg hc)] at hok
    cases hok
  | ok lr =>
    rw [getLRFE_not_stored_ok sch epoch _ h1 hn
      (calcNew_policy_ok sch epoch lr hg hc)] at hok
    injection hok with hok
    have hv : some (if lr < sch.minLearningRate then sch.minLearningRate else lr) = v :=
      congrArg Prod.fst hok
    refine ⟨_, hv.symm, ?_⟩
    by_cases hlt : lr < sch.minLearningRate
    · rw [if_pos hlt]
    · rw [if_neg hlt]; exact le_of_not_lt hlt

/-- Claim C1 amended witness: on an empty store with floor `0.5` the
NewbobRelative policy path returns the default rate `1 ≥ 0.5`. -/
theorem minRateFloor_amended_witness :
    ∃ r, (some (1 : Rat) : Option Rat) = some r ∧ schFreshFloor.minLearningRate ≤ r :=
  minRateFloor_amended schFreshFloor 2 (by decide) rfl (by decide) (some 1)
    (setDefaultLearningRateForEpoch schFreshFloor 2 (some 1)) (by decide)

/-- Claim C4 counterexample: with hold-over `m = 2` and the last two rates
both equal to `1`, the next computed rate is the decayed `0.5`, not the
identical rate `1`: identical last rates make the hold-over condition
`len(set(last_lrs)) >= 2 or 0 < len < m` false, so the policy is consulted. -/
theorem holdOver_identical_counterexample :
    lastEpochsForEpoch schHoldSame.epochData 3 2 = [1, 2] ∧
    lastLrs schHoldSame 3 = [some 1, some 1] ∧
    schHoldSame.minNumEpochsPerNewLearningRate = 2 ∧
    calcNewLearningRateForEpoch schHoldSame 3 = .ok (some (1/2)) ∧
    some ((1 : Rat)/2) ≠ some (1 : Rat) := by
  refine ⟨by decide, by decide, by decide, by decide, by decide⟩

/-- Claim C4 as amended: when the hold-over condition actually holds (two or
more distinct recorded rates among the last `m` epochs, or fewer than `m`
epochs with history but at least one), the next computed rate is the most
recent of those rates, unchanged and unclamped, regardless of the policy. -/
theorem holdOver_amended (sch : Scheduler) (epoch : Nat) (h : holdCond sch epoch) :
    ∃ lr, (lastLrs sch epoch).getLast? = some lr ∧
      calcNewLearningRateForEpoch sch epoch = .ok lr := by
  have hne : lastLrs sch epoch ≠ [] := by
    rcases h.2 with h2 | h2
    · intro he; rw [he] at h2; simp [List.dedup] at h2
    · intro he; rw [he] at h2; simp at h2
  obtain ⟨lr, hlast⟩ : ∃ lr, (lastLrs sch epoch).getLast? = some lr := by
    rw [List.getLast?_eq_getLast _ hne]; exact ⟨_, rfl⟩
  refine ⟨lr, hlast, ?_⟩
  unfold calcNewLearningRateForEpoch
  rw [if_pos h, hlast]

/-- Claim C4 amended witness: `m = 2` with a single epoch of history holds
the single recorded rate `3`. -/
theorem holdOver_amended_witness :
    ∃ lr, (lastLrs schHoldShort 3).getLast? = some lr ∧
      calcNewLearningRateForEpoch schHoldShort 3 = .ok lr :=
  holdOver_amended schHoldShort 3 (by decide)

/-- Claim C5 (confirmed): for an epoch that already has a stored rate,
`rate_for_epoch` returns exactly that rate and leaves the scheduler (and
hence the store) unchanged, so a second call returns the same value. -/
theorem storedRate_idempotent (sch : Scheduler) (epoch : Nat) (ed : EpochData)
    (r : Rat) (h1 : 1 ≤ epoch) (hs : alookup sch.epochData epoch = some ed)
    (hr : ed.learningRate = some r) :
    getLearningRateForEpoch sch epoch = .ok (some r, sch) ∧
    ∀ v sch', getLearningRateForEpoch sch epoch = .ok (v, sch') →
      getLearningRateForEpoch sch' epoch = .ok (v, sch') := by
  have hmain : getLearningRateForEpoch sch epoch = .ok (some r, sch) := by
    unfold getLearningRateForEpoch
    rw [if_neg (by omega), hs]
    show Except.ok (ed.learningRate, sch) = _
    rw [hr]
  refine ⟨hmain, ?_⟩
  intro v sch' h
  rw [hmain] at h
  injection h with h
  cases h
  exact hmain

/-- Claim C5 witness: epoch 1 stored at rate 2 is returned unchanged with an
unchanged scheduler. -/
theorem storedRate_idempotent_witness :
    getLearningRateForEpoch schStored 1 = .ok (some 2, schStored) :=
  (storedRate_idempotent schStored 1 ⟨some 2, []⟩ 2 (by decide) rfl rfl).1

/-- Claim C7 counterexample: off an update boundary, NewbobMultiEpoch starts
from `get_most_recent_learning_rate(epoch)` with its default
`excludeCurrent=True`: with only epoch 3 stored (rate 7) and
`updateInterval = 3`, `calc_learning_rate_for_epoch(3)` returns the default
rate `1`, not the include-current value `7`. -/
theorem multiEpoch_includeCurrent_counterexample :
    calcLearningRateForEpoch schMulti 3 = .ok 1 ∧
    getMostRecentLearningRate schMulti 3 false = 7 ∧
    ((1 : Rat) ≠ 7) := by
  refine ⟨by decide, by decide, by decide⟩

/-- Claim C7 as amended: NewbobMultiEpoch starts from
`most_recent_rate(epoch, include_current=false)` (the epoch itself is
excluded), and off an update-interval boundary it returns that starting rate
unchanged without consulting the error history. -/
theorem multiEpoch_interval_amended (sch : Scheduler) (n ui : Nat)
    (thr decay growth : Rat) (epoch : Nat)
    (hk : sch.kind = .newbobMultiEpoch n ui thr decay growth)
    (hui : 1 < ui) (hmod : epoch % ui ≠ 1) :
    calcLearningRateForEpoch sch epoch =
      .ok (getMostRecentLearningRate sch epoch true) := by
  unfold calcLearningRateForEpoch
  rw [hk]
  show newbobMultiCalc sch n ui thr decay growth epoch = _
  unfold newbobMultiCalc
  simp only [if_pos (show ui > 1 ∧ epoch % ui ≠ 1 from ⟨hui, hmod⟩)]

/-- Claim C7 amended witness: `updateInterval = 3` at epoch 3
(`3 mod 3 = 0 ≠ 1`) returns the exclude-current most recent rate. -/
theorem multiEpoch_interval_amended_witness :
    calcLearningRateForEpoch schMulti 3 =
      .ok (getMostRecentLearningRate schMulti 3 true) :=
  multiEpoch_interval_amended schMulti 1 3 (-1/100) (1/2) 1 3 rfl
    (by decide) (by decide)

/-- Claim C8 counterexample: a stored rate of exactly `0.0` is falsy in the
source's truthiness test, so `set_default_learning_rate_for_epoch` *does*
overwrite it. -/
theorem setDefault_zeroRate_counterexample :
    alookup schZeroRate.epochData 1 = some ⟨some 0, [("a", 2)]⟩ ∧
    alookup (setDefaultLearningRateForEpoch schZeroRate 1 (some 5)).epochData 1 =
      some ⟨some 5, [("a", 2)]⟩ ∧
    (some (5 : Rat) ≠ some (0 : Rat)) := by
  refine ⟨by decide, by decide, by decide⟩

/-- Claim C8 as amended: a record with a present *nonzero* rate is left
entirely unchanged; a record whose rate is absent or `0.0` has its rate slot
overwritten (errors kept); a missing record is created with the given rate
and an empty error map; and every other epoch's record is unchanged. -/
theorem setDefault_amended (sch : Scheduler) (epoch : Nat) (v : Option Rat) :
    (∀ ed r, alookup sch.epochData epoch = some ed → ed.learningRate = some r →
      r ≠ 0 → setDefaultLearningRateForEpoch sch epoch v = sch) ∧
    (∀ ed, alookup sch.epochData epoch = some ed → isFalsy ed.learningRate = true →
      alookup (setDefaultLearningRateForEpoch sch epoch v).epochData epoch =
        some { ed with learningRate := v }) ∧
    (alookup sch.epochData epoch = none →
      alookup (setDefaultLearningRateForEpoch sch epoch v).epochData epoch =
        some ⟨v, []⟩) ∧
    (∀ e', e' ≠ epoch →
      alookup (setDefaultLearningRateForEpoch sch epoch v).epochData e' =
        alookup sch.epochData e') := by
  refine ⟨?_, ?_, ?_, ?_⟩
  · intro ed r hs hr hnz
    have hff : isFalsy ed.learningRate = false := by
      rw [hr]; simpa [isFalsy] using hnz
    unfold setDefaultLearningRateForEpoch
    rw [hs]
    simp [hff]
  · intro ed hs hf
    unfold setDefaultLearningRateForEpoch
    rw [hs]
    simp only [hf]
    simpa using alookup_ainsert_self sch.epochData epoch _
  · intro hs
    unfold setDefaultLearningRateForEpoch
    rw [hs]
    simpa using alookup_ainsert_self sch.epochData epoch _
  · intro e' he'
    unfold setDefaultLearningRateForEpoch
    cases hs : alookup sch.epochData epoch with
    | none => simpa using alookup_ainsert_ne sch.epochData epoch e' _ he'
    | some ed =>
      cases hf : isFalsy ed.learningRate with
      | true =>
        simp only [hf]
        simpa using alookup_ainsert_ne sch.epochData epoch e' _ he'
      | false => simp [hf]

/-- Claim C8 amended witness: a nonzero stored rate (epoch 1 of
`schStored`) survives `set_default` untouched, and in `schZeroRate` the
overwrite of epoch 1 leaves epoch 2 alone. -/
theorem setDefault_amended_witness :
    setDefaultLearningRateForEpoch schStored 1 (some 5) = schStored ∧
    alookup (setDefaultLearningRateForEpoch schZeroRate 1 (some 5)).epochData 2 =
      alookup schZeroRate.epochData 2 :=
  ⟨(setDefault_amended schStored 1 (some 5)).1 ⟨some 2, []⟩ 2 rfl rfl (by decide),
   (setDefault_amended schZeroRate 1 (some 5)).2.2.2 2 (by decide)⟩

/-- Claim C9 (confirmed): for an epoch present in the store with a non-empty
error map, the key resolved by `get_error_key` is always a member of that
epoch's error map, so the `assert key in error` branch of
`get_epoch_error_value` / `get_epoch_error_key_value` cannot fire for such
epochs. -/
theorem getErrorKey_member (sch : Scheduler) (epoch : Nat) (ed : EpochData)
    (hs : alookup sch.epochData epoch = some ed) (hne : ed.error ≠ []) :
    (∃ k, getErrorKey sch epoch = .ok (some k) ∧ hasKey ed.error k = true) ∧
    getEpochErrorKeyValue sch epoch ≠ .error .keyNotInErrorMap ∧
    getEpochErrorValue sch epoch ≠ .error .keyNotInErrorMap := by
  have hempty : ed.error.isEmpty = false := by
    cases hE : ed.error with
    | nil => exact absurd hE hne
    | cons a t => rfl
  have hmem : ∃ k, getErrorKey sch epoch = .ok (some k) ∧ hasKey ed.error k = true := by
    unfold getErrorKey
    simp only [hs, hempty, Bool.false_eq_true, if_false]
    by_cases hold : (ed.error.length == 1 && hasKey ed.error "old_format_score") = true
    · rw [if_pos hold]
      exact ⟨"old_format_score", rfl, ((Bool.and_eq_true _ _).mp hold).2⟩
    · rw [if_neg hold]
      cases hf1 : (cfgErrorKeys sch.errorMeasureKey ++
          ["dev_score", "dev_score_output"]).find? (fun key => hasKey ed.error key) with
      | some key =>
        simp only [hf1]
        exact ⟨key, rfl, List.find?_some hf1⟩
      | none =>
        simp only [hf1]
        cases hf2 : (sortStr (keysOf ed.error)).find? (fun key =>
            key == "dev_score_output/output" ||
              key.startsWith "dev_score_output/output_") with
        | some key =>
          simp only [hf2]
          exact ⟨key, rfl, hasKey_of_mem_keys _ _
            (mem_keys_of_mem_sortStr (List.mem_of_find?_eq_some hf2))⟩
        | none =>
          simp only [hf2]
          cases hf3 : (sortStr (keysOf ed.error)).find? (fun key =>
              key.startsWith "dev_score_output/") with
          | some key =>
            simp only [hf3]
            exact ⟨key, rfl, hasKey_of_mem_keys _ _
              (mem_keys_of_mem_sortStr (List.mem_of_find?_eq_some hf3))⟩
          | none =>
            simp only [hf3]
            cases hf4 : (sortStr (keysOf ed.error)).find? (fun key =>
                key.startsWith "dev_") with
            | some key =>
              simp only [hf4]
              exact ⟨key, rfl, hasKey_of_mem_keys _ _
                (mem_keys_of_mem_sortStr (List.mem_of_find?_eq_some hf4))⟩
            | none =>
              simp only [hf4]
              cases hf5 : (["train_score", "train_score_output"].find?
                  (fun key => hasKey ed.error key)) with
              | some key =>
                simp only [hf5]
                exact ⟨key, rfl, List.find?_some hf5⟩
              | none =>
                simp only [hf5]
                cases hsk : sortStr (keysOf ed.error) with
                | nil =>
                  exfalso
                  have hlen : (sortStr (keysOf ed.error)).length =
                      (keysOf ed.error).length :=
                    (List.perm_insertionSort _ _).length_eq
                  rw [hsk] at hlen
                  have h0 : ed.error.length = 0 := by
                    have := hlen.symm
                    unfold keysOf at this
                    simpa using this
                  exact hne (List.length_eq_zero.mp h0)
                | cons k t =>
                  refine ⟨k, rfl, hasKey_of_mem_keys _ _
                    (mem_keys_of_mem_sortStr ?_)⟩
                  rw [hsk]
                  exact List.mem_cons.mpr (Or.inl rfl)
  obtain ⟨k, hk, hkk⟩ := hmem
  have hdict : getEpochErrorDict sch epoch = ed.error := by
    unfold getEpochErrorDict
    rw [hs]
  have h2 : getEpochErrorKeyValue sch epoch ≠ .error .keyNotInErrorMap := by
    unfold getEpochErrorKeyValue
    simp only [hdict, hempty, Bool.false_eq_true, if_false, hk, Bind.bind, Except.bind]
    by_cases hk0 : k = ""
    · rw [if_pos hk0]
      intro hcon
      cases hcon
    · rw [if_neg hk0]
      obtain ⟨v, hv⟩ := Option.isSome_iff_exists.mp hkk
      simp only [hv]
      intro hcon
      cases hcon
  have h3 : getEpochErrorValue sch epoch ≠ .error .keyNotInErrorMap := by
    unfold getEpochErrorValue
    intro hcon
    cases hx : getEpochErrorKeyValue sch epoch with
    | ok o =>
      rw [hx] at hcon
      cases hcon
    | error e =>
      rw [hx] at hcon
      have he : e = Err.keyNotInErrorMap := by
        simpa [Except.map] using hcon
      exact h2 (by rw [hx, he])
  exact ⟨⟨k, hk, hkk⟩, h2, h3⟩

/-- Claim C9 witness: the store of `schOddKey` resolves the key `"foo"` via
the smallest-key fallback, and the membership assertion cannot fire. -/
theorem getErrorKey_member_witness :
    (∃ k, getErrorKey schOddKey 1 = .ok (some k) ∧
      hasKey (⟨some 1, [("foo", 1)]⟩ : EpochData).error k = true) ∧
    getEpochErrorKeyValue schOddKey 1 ≠ .error .keyNotInErrorMap ∧
    getEpochErrorValue schOddKey 1 ≠ .error .keyNotInErrorMap :=
  getErrorKey_member schOddKey 1 ⟨some 1, [("foo", 1)]⟩ rfl (by decide)

/-- Claim C10 (confirmed): `calc_relative_error` divides with no zero guard.
Whenever both epochs resolve values under the same key and the configured
denominator value (the new epoch's by default, the old epoch's under
`relativeErrorDivByOld`) is zero, it raises a division error instead of
returning `None`; with the rate-normalization flag set, a zero most-recent
learning rate likewise forces a division error; with the flag unset and a
nonzero denominator the call succeeds; and the concrete store
`schZeroDenom` (whose epoch-2 `dev_score` is `0.0`) exhibits the failure. -/
theorem calcRelativeError_no_zero_guard :
    (∀ sch oldE newE k oe ne,
      getEpochErrorKeyValue sch oldE = .ok (some (k, oe)) →
      getEpochErrorKeyValue sch newE = .ok (some (k, ne)) →
      (if sch.relativeErrorDivByOld then oe else ne) = 0 →
      calcRelativeError sch oldE newE = .error .divByZero) ∧
    (∀ sch oldE newE k oe ne,
      getEpochErrorKeyValue sch oldE = .ok (some (k, oe)) →
      getEpochErrorKeyValue sch newE = .ok (some (k, ne)) →
      (if sch.relativeErrorDivByOld then oe else ne) ≠ 0 →
      sch.relativeErrorAlsoRelativeToLearningRate = true →
      getMostRecentLearningRate sch newE false = 0 →
      sch.defaultLearningRate ≠ 0 →
      calcRelativeError sch oldE newE = .error .divByZero) ∧
    (∀ sch oldE newE k oe ne,
      getEpochErrorKeyValue sch oldE = .ok (some (k, oe)) →
      getEpochErrorKeyValue sch newE = .ok (some (k, ne)) →
      (if sch.relativeErrorDivByOld then oe else ne) ≠ 0 →
      sch.relativeErrorAlsoRelativeToLearningRate = false →
      ∃ re, calcRelativeError sch oldE newE = .ok (some re)) ∧
    (calcRelativeError schZeroDenom 1 2 = .error .divByZero ∧
      getEpochErrorValue schZeroDenom 2 = .ok (some 0)) := by
  refine ⟨?_, ?_, ?_, by decide, by decide⟩
  · intro sch oldE newE k oe ne hold hnew hz
    unfold calcRelativeError
    simp only [hold, hnew, Bind.bind, Except.bind]
    rw [if_neg (show ¬ k ≠ k from fun h => h rfl)]
    cases hd : sch.relativeErrorDivByOld with
    | true =>
      rw [hd] at hz
      simp at hz
      simp [hd, hz, cdiv, Bind.bind, Except.bind]
    | false =>
      rw [hd] at hz
      simp at hz
      simp [hd, hz, cdiv, Bind.bind, Except.bind]
  · intro sch oldE newE k oe ne hold hnew hnz hflag hlr hdflt
    unfold calcRelativeError
    simp only [hold, hnew, Bind.bind, Except.bind]
    rw [if_neg (show ¬ k ≠ k from fun h => h rfl)]
    cases hd : sch.relativeErrorDivByOld with
    | true =>
      rw [hd] at hnz
      simp at hnz
      simp [hd, cdiv, abs_eq_zero, hnz, hflag, hlr, hdflt, Bind.bind, Except.bind,
        zero_div]
    | false =>
      rw [hd] at hnz
      simp at hnz
      simp [hd, cdiv, abs_eq_zero, hnz, hflag, hlr, hdflt, Bind.bind, Except.bind,
        zero_div]
  · intro sch oldE newE k oe ne hold hnew hnz hflag
    unfold calcRelativeError
    simp only [hold, hnew, Bind.bind, Except.bind]
    rw [if_neg (show ¬ k ≠ k from fun h => h rfl)]
    cases hd : sch.relativeErrorDivByOld with
    | true =>
      rw [hd] at hnz
      simp at hnz
      refine ⟨(ne - oe) / |oe|, ?_⟩
      simp [hd, cdiv, abs_eq_zero, hnz, hflag, Bind.bind, Except.bind]
    | false =>
      rw [hd] at hnz
      simp at hnz
      refine ⟨(ne - oe) / |ne|, ?_⟩
      simp [hd, cdiv, abs_eq_zero, hnz, hflag, Bind.bind, Except.bind]

/-- Claim C10 witness: the zero-denominator store raises the division error,
while a nonzero denominator (the `dev_score=0.99` store, flag unset)
succeeds. -/
theorem calcRelativeError_no_zero_guard_witness :
    calcRelativeError schZeroDenom 1 2 = .error .divByZero ∧
    (∃ re, calcRelativeError schEp2Decay 1 2 = .ok (some re)) :=
  ⟨calcRelativeError_no_zero_guard.1 schZeroDenom 1 2 "dev_score" 1 0
      (by decide) (by decide) (by decide),
   calcRelativeError_no_zero_guard.2.2.1 schEp2Decay 1 2 "dev_score" 1 (99/100)
      (by decide) (by decide) (by decide) rfl⟩

theorem parseFVal_serFVal (v : FVal) : parseFVal (serFVal v) = some v := by
  cases v <;> rfl

theorem parseLR_serLR (o : Option FVal) : parseLR (serLR o) = some o := by
  cases o with
  | none => rfl
  | some v => cases v <;> rfl

theorem parseError_serError (es : List (String × FVal)) (rest : List Tok) :
    parseError (serError es ++ (Tok.closeDict :: rest)) = some (es, rest) := by
  induction es generalizing rest with
  | nil => rfl
  | cons kv es ih =>
    obtain ⟨k, v⟩ := kv
    simp [serError, parseError, parseFVal_serFVal, ih]

theorem parseRecord_serRecord (r : PEpochData) (rest : List Tok) :
    parseRecord (serRecord r ++ rest) = some (r, rest) := by
  obtain ⟨lr, es⟩ := r
  simp [serRecord, parseRecord, parseLR_serLR, List.append_assoc, List.cons_append,
    parseError_serError]

theorem parseStoreEntries_serStoreEntries (st : PStore) :
    ∀ (fuel : Nat) (rest : List Tok), st.length < fuel →
      parseStoreEntries fuel (serStoreEntries st ++ (Tok.closeDict :: rest)) =
        some (st, rest) := by
  induction st with
  | nil =>
    intro fuel rest h
    cases fuel with
    | zero => exact absurd h (by omega)
    | succ f => rfl
  | cons er st ih =>
    intro fuel rest h
    obtain ⟨e, r⟩ := er
    cases fuel with
    | zero => exact absurd h (by omega)
    | succ f =>
      have hih := ih f rest (by simp only [List.length_cons] at h; omega)
      have hrec := parseRecord_serRecord r
        (serStoreEntries st ++ (Tok.closeDict :: rest))
      simp [serStoreEntries, parseStoreEntries, List.cons_append, List.append_assoc,
        hrec, hih]

theorem length_le_serStoreEntries (st : PStore) :
    st.length ≤ (serStoreEntries st).length := by
  induction st with
  | nil => simp [serStoreEntries]
  | cons er st ih =>
    obtain ⟨e, r⟩ := er
    simp only [serStoreEntries, List.length_cons, List.length_append]
    omega

/-- Claim C6 (confirmed, persistence modelled from the spec): serializing
any store — including records whose error values are the `nan` / `inf` /
`-inf` float literals — and parsing the result reconstructs the store
exactly; in particular `save()` to a configured backing path followed by a
fresh `load()` of the same path returns the saved store. -/
theorem save_load_roundtrip :
    (∀ st : PStore, parseStore (serStore st) = some st) ∧
    (∀ (f : String) (st : PStore) (fs : FileSystem),
      loadFile f (saveFile (some f) st fs) = some st) := by
  have hmain : ∀ st : PStore, parseStore (serStore st) = some st := by
    intro st
    have hlen : st.length < (serStoreEntries st ++ [Tok.closeDict]).length := by
      have := length_le_serStoreEntries st
      simp only [List.length_append, List.length_cons, List.length_nil]
      omega
    simp only [parseStore, serStore]
    rw [parseStoreEntries_serStoreEntries st _ [] hlen]
  refine ⟨hmain, ?_⟩
  intro f st fs
  unfold loadFile saveFile
  simp [hmain st]

end

end LRC
